import Mathlib

/-!
Verification of the request/response pipeline of the DigitalOcean MCP server:
the HTTP request engine (status-code driven error classification), the
pagination normalizer, the query-string builder and the dual-mode response
formatter.  JavaScript runtime values are shallowly embedded as `JsValue`;
machine numbers are modelled as `Option Int` (`none` playing the role of
`NaN`), which covers the integral numbers and the `NaN` produced by
`parseInt` in the modelled fragment.
-/

/-- A JavaScript number in the modelled fragment: an integer, or `NaN`
(represented by `none`).  The pipeline only ever produces integral numbers
(`parseInt`, `length`, JSON integers) or `NaN`. -/
abbrev JsNum := Option Int

/-- Shallow embedding of the JavaScript runtime values flowing through the
pipeline.  Objects are insertion-ordered association lists with unique keys
(the order `Object.keys` observes); arrays are lists. -/
inductive JsValue where
  | null : JsValue
  | undefined : JsValue
  | bool : Bool → JsValue
  | num : JsNum → JsValue
  | str : String → JsValue
  | arr : List JsValue → JsValue
  | obj : List (String × JsValue) → JsValue

namespace JsValue

/-- JavaScript truthiness: `null`, `undefined`, `false`, `0`, `NaN` and the
empty string are falsy; every object and array is truthy. -/
def truthy : JsValue → Bool
  | .null => false
  | .undefined => false
  | .bool b => b
  | .num none => false
  | .num (some i) => decide (i ≠ 0)
  | .str s => decide (s ≠ "")
  | .arr _ => true
  | .obj _ => true

/-- Is the value `null` or `undefined` (the values on which property access
throws and which optional chaining short-circuits)? -/
def nullish : JsValue → Bool
  | .null => true
  | .undefined => true
  | _ => false

end JsValue

/-- Property read `v[k]` on a non-nullish receiver: the first binding of the
key in an object, the `length` of an array or string, `undefined` otherwise.
(In JavaScript a read on `null`/`undefined` throws; every call site in the
modelled code either guards with `?.`, with an explicit nullish test, or is
applied to non-nullish receivers, so the model keeps the function total.) -/
def jsMember : JsValue → String → JsValue
  | .obj fs, k =>
    match fs.find? (fun p => p.1 = k) with
    | some p => p.2
    | none => .undefined
  | .arr xs, k => if k = "length" then .num (some xs.length) else .undefined
  | .str s, k => if k = "length" then .num (some s.length) else .undefined
  | _, _ => .undefined

/-- Optional chaining `v?.k`: `undefined` when the receiver is nullish,
otherwise the property read. -/
def jsOpt (v : JsValue) (k : String) : JsValue :=
  if v.nullish then .undefined else jsMember v k

/-- JavaScript `a || b`. -/
def jsOr (a b : JsValue) : JsValue :=
  if a.truthy then a else b

/-- JavaScript whitespace accepted by `parseInt` before the digits
(the ASCII fragment). -/
def jsIsSpace (c : Char) : Bool :=
  c = ' ' || c = '\t' || c = '\n' || c = '\r' || c = '\x0b' || c = '\x0c'

/-- Leading run of decimal digits of a character list. -/
def takeDigits : List Char → List Char
  | [] => []
  | c :: cs => if c.isDigit then c :: takeDigits cs else []

/-- Numeric value of a digit list (most significant first). -/
def digitsVal (ds : List Char) : Nat :=
  ds.foldl (fun acc c => 10 * acc + (c.toNat - '0'.toNat)) 0

/-- `parseInt(s, 10)`: skip leading whitespace, read an optional sign, then
the longest leading run of decimal digits; `NaN` (`none`) when that run is
empty. -/
def jsParseInt (s : String) : JsNum :=
  let cs := s.toList.dropWhile jsIsSpace
  let (neg, cs) : Bool × List Char :=
    match cs with
    | '-' :: rest => (true, rest)
    | '+' :: rest => (false, rest)
    | rest => (false, rest)
  match takeDigits cs with
  | [] => none
  | ds => some (if neg then -(digitsVal ds : Int) else (digitsVal ds : Int))

mutual

/-- JavaScript `String(v)`: template-literal / `String()` coercion.  Arrays
join their elements with `","` (nullish elements become the empty string,
as in `Array.prototype.join`); plain objects print `[object Object]`. -/
def jsToString : JsValue → String
  | .null => "null"
  | .undefined => "undefined"
  | .bool true => "true"
  | .bool false => "false"
  | .num none => "NaN"
  | .num (some i) => toString i
  | .str s => s
  | .arr xs => String.intercalate "," (jsToStringElems xs)
  | .obj _ => "[object Object]"

/-- Elementwise stringification used by `Array.prototype.join`. -/
def jsToStringElems : List JsValue → List String
  | [] => []
  | .null :: vs => "" :: jsToStringElems vs
  | .undefined :: vs => "" :: jsToStringElems vs
  | v :: vs => jsToString v :: jsToStringElems vs

end

/-- Lower-case hexadecimal digit. -/
def hexDigitLower (n : Nat) : Char :=
  if n < 10 then Char.ofNat ('0'.toNat + n) else Char.ofNat ('a'.toNat + n - 10)

/-- Escape one character for a JSON string literal, as `JSON.stringify`
does (`\"`, `\\`, `\b`, `\f`, `\n`, `\r`, `\t`, `\u00xx` for other
control characters). -/
def jsonEscapeChar (c : Char) : String :=
  if c = '"' then "\\\""
  else if c = '\\' then "\\\\"
  else if c = '\x08' then "\\b"
  else if c = '\x0c' then "\\f"
  else if c = '\n' then "\\n"
  else if c = '\r' then "\\r"
  else if c = '\t' then "\\t"
  else if c.toNat < 0x20 then
    String.mk ['\\', 'u', '0', '0', hexDigitLower (c.toNat / 16), hexDigitLower (c.toNat % 16)]
  else String.singleton c

/-- JSON string literal for `s`, quotes included. -/
def jsonQuote (s : String) : String :=
  "\"" ++ String.join (s.toList.map jsonEscapeChar) ++ "\""

mutual

/-- `JSON.stringify(v, null, 2)` at current indentation `ind` (the
indentation of the enclosing closing bracket).  `none` models the
`undefined` result `JSON.stringify` gives for `undefined` values;
`NaN` serializes as `null`. -/
def jsonStringifyAt (ind : String) : JsValue → Option String
  | .null => some "null"
  | .undefined => none
  | .bool true => some "true"
  | .bool false => some "false"
  | .num none => some "null"
  | .num (some i) => some (toString i)
  | .str s => some (jsonQuote s)
  | .arr [] => some "[]"
  | .arr (x :: xs) =>
    let inner := ind ++ "  "
    let pieces := jsonStringifyElems inner (x :: xs)
    some ("[\n" ++ String.intercalate ",\n" (pieces.map (fun p => inner ++ p)) ++ "\n" ++ ind ++ "]")
  | .obj fs =>
    let inner := ind ++ "  "
    let pieces := jsonStringifyMembers inner fs
    if pieces.isEmpty then some "\x7b\x7d"
    else some ("\x7b\n" ++ String.intercalate ",\n" (pieces.map (fun p => inner ++ p)) ++ "\n" ++ ind ++ "\x7d")

/-- Array elements for `JSON.stringify`: `undefined` entries print `null`. -/
def jsonStringifyElems (ind : String) : List JsValue → List String
  | [] => []
  | v :: vs =>
    ((jsonStringifyAt ind v).getD "null") :: jsonStringifyElems ind vs

/-- Object members for `JSON.stringify`: members whose value serializes to
`undefined` are skipped. -/
def jsonStringifyMembers (ind : String) : List (String × JsValue) → List String
  | [] => []
  | (k, v) :: fs =>
    match jsonStringifyAt ind v with
    | none => jsonStringifyMembers ind fs
    | some s => (jsonQuote k ++ ": " ++ s) :: jsonStringifyMembers ind fs

end

/-- `JSON.stringify(v, null, 2)`; `none` when the result is `undefined`. -/
def jsonStringify (v : JsValue) : Option String :=
  jsonStringifyAt "" v

/-- UTF-8 bytes of one character. -/
def charUtf8 (c : Char) : List Nat :=
  let n := c.toNat
  if n < 0x80 then [n]
  else if n < 0x800 then [0xC0 + n / 0x40, 0x80 + n % 0x40]
  else if n < 0x10000 then [0xE0 + n / 0x1000, 0x80 + (n / 0x40) % 0x40, 0x80 + n % 0x40]
  else [0xF0 + n / 0x40000, 0x80 + (n / 0x1000) % 0x40, 0x80 + (n / 0x40) % 0x40, 0x80 + n % 0x40]

/-- Upper-case hexadecimal digit. -/
def hexDigitUpper (n : Nat) : Char :=
  if n < 10 then Char.ofNat ('0'.toNat + n) else Char.ofNat ('A'.toNat + n - 10)

/-- Bytes left verbatim by the `application/x-www-form-urlencoded`
serializer: ASCII alphanumerics and `*`, `-`, `.`, `_`. -/
def formUrlSafe (b : Nat) : Bool :=
  (0x30 ≤ b && b ≤ 0x39) || (0x41 ≤ b && b ≤ 0x5A) || (0x61 ≤ b && b ≤ 0x7A) ||
    b = 0x2A || b = 0x2D || b = 0x2E || b = 0x5F

/-- Serialize one byte for `application/x-www-form-urlencoded`
(space becomes `+`, unsafe bytes become `%XX`). -/
def formUrlEncodeByte (b : Nat) : String :=
  if formUrlSafe b then String.singleton (Char.ofNat b)
  else if b = 0x20 then "+"
  else String.mk ['%', hexDigitUpper (b / 16 % 16), hexDigitUpper (b % 16)]

/-- Percent-encoding used by `URLSearchParams.toString()`:
the `application/x-www-form-urlencoded` serializer over the UTF-8 bytes. -/
def formUrlEncode (s : String) : String :=
  String.join ((s.toList.flatMap charUtf8).map formUrlEncodeByte)

/-- Value of a hexadecimal digit character. -/
def hexVal (c : Char) : Option Nat :=
  if '0' ≤ c ∧ c ≤ '9' then some (c.toNat - '0'.toNat)
  else if 'a' ≤ c ∧ c ≤ 'f' then some (c.toNat - 'a'.toNat + 10)
  else if 'A' ≤ c ∧ c ≤ 'F' then some (c.toNat - 'A'.toNat + 10)
  else none

/-- `application/x-www-form-urlencoded` percent-decoding (`+` is a space,
`%XX` a byte; malformed escapes stay verbatim).  Decoded bytes are read as
characters directly, which is exact on the ASCII inputs the modelled
fragment exercises. -/
def formUrlDecode : List Char → List Char
  | [] => []
  | '+' :: rest => ' ' :: formUrlDecode rest
  | '%' :: a :: b :: rest2 =>
    match hexVal a, hexVal b with
    | some x, some y => Char.ofNat (16 * x + y) :: formUrlDecode rest2
    | _, _ => '%' :: formUrlDecode (a :: b :: rest2)
  | c :: rest => c :: formUrlDecode rest

/-- Split a character list at the first occurrence of `c`; `none` when `c`
does not occur.  Neither part contains that occurrence. -/
def breakAtChar (c : Char) : List Char → Option (List Char × List Char)
  | [] => none
  | x :: rest =>
    if x = c then some ([], rest)
    else (breakAtChar c rest).map (fun p => (x :: p.1, p.2))

/-- Split a character list on every occurrence of `c`. -/
def splitOnChar (c : Char) : List Char → List (List Char)
  | [] => [[]]
  | x :: rest =>
    if x = c then [] :: splitOnChar c rest
    else
      match splitOnChar c rest with
      | h :: t => (x :: h) :: t
      | [] => [[x]]

/-- The part of a URL string before its fragment (`#`). -/
def urlCutFragment (cs : List Char) : List Char :=
  match breakAtChar '#' cs with
  | some p => p.1
  | none => cs

/-- The query of a URL string: everything after the first `?` of the
fragment-stripped URL; `none` when there is no `?`. -/
def urlQuery (s : String) : Option String :=
  (breakAtChar '?' (urlCutFragment s.toList)).map (fun p => String.mk p.2)

/-- The name/value pairs of a query string, as `URLSearchParams` parses
them: split on `&`, ignore empty pieces, split each piece at its first
`=` (no `=` means an empty value), percent-decode names and values. -/
def searchParamsPairs (query : String) : List (String × String) :=
  ((splitOnChar '&' query.toList).filter (fun p => !p.isEmpty)).map fun piece =>
    match breakAtChar '=' piece with
    | some kv => (String.mk (formUrlDecode kv.1), String.mk (formUrlDecode kv.2))
    | none => (String.mk (formUrlDecode piece), "")

/-- `new URL(u).searchParams.get(name)`: the value of the first pair with
the given name, `none` for `null`. -/
def searchParamsGet (query : String) (name : String) : Option String :=
  ((searchParamsPairs query).find? (fun p => p.1 = name)).map (fun p => p.2)

/-- Characters allowed inside a URL scheme after its first letter. -/
def isSchemeChar (c : Char) : Bool :=
  c.isAlphanum || c = '+' || c = '-' || c = '.'

/-- Does the character list start with a scheme followed by `:`? -/
def hasSchemeColon : List Char → Bool
  | [] => false
  | c :: rest => if c = ':' then true else if isSchemeChar c then hasSchemeColon rest else false

/-- Model of whether `new URL(u)` succeeds: the string must start with an
alphabetic scheme terminated by `:` (the WHATWG parser additionally
rejects some schemed strings, e.g. special schemes with empty hosts;
the inputs exercised here are plain absolute `http(s)` URLs or strings
with no scheme at all, where this model agrees with it). -/
def urlParseOk (url : String) : Bool :=
  match url.toList with
  | [] => false
  | c :: rest => c.isAlpha && hasSchemeColon rest

/-- JSON insignificant whitespace. -/
def jsonWsChar (c : Char) : Bool :=
  c = ' ' || c = '\t' || c = '\n' || c = '\r'

/-- Skip JSON whitespace. -/
def jsonSkipWs (cs : List Char) : List Char :=
  cs.dropWhile jsonWsChar

/-- Insert a member into a parsed JSON object the way JavaScript objects
do: a repeated key overwrites the earlier value in place, a fresh key is
appended (so key order is insertion order, as `Object.keys` reports it). -/
def objInsert (fs : List (String × JsValue)) (k : String) (v : JsValue) :
    List (String × JsValue) :=
  if fs.any (fun p => p.1 = k) then fs.map (fun p => if p.1 = k then (k, v) else p)
  else fs ++ [(k, v)]

/-- Parse the remainder of a JSON string literal (the opening quote already
consumed), returning its characters and the rest of the input.  Escapes
follow RFC 8259; a `\u` escape for a surrogate code point is outside the
modelled fragment and fails. -/
def jsonStringChars : List Char → Option (List Char × List Char)
  | [] => none
  | '"' :: rest => some ([], rest)
  | '\\' :: 'u' :: a :: b :: c :: d :: rest =>
    match hexVal a, hexVal b, hexVal c, hexVal d with
    | some x, some y, some z, some w =>
      let n := 0x1000 * x + 0x100 * y + 0x10 * z + w
      if n < 0xd800 ∨ 0xdfff < n then
        (jsonStringChars rest).map (fun p => (Char.ofNat n :: p.1, p.2))
      else none
    | _, _, _, _ => none
  | '\\' :: e :: rest =>
    let decoded : Option Char :=
      if e = '"' then some '"'
      else if e = '\\' then some '\\'
      else if e = '/' then some '/'
      else if e = 'b' then some '\x08'
      else if e = 'f' then some '\x0c'
      else if e = 'n' then some '\n'
      else if e = 'r' then some '\r'
      else if e = 't' then some '\t'
      else none
    match decoded with
    | some ch => (jsonStringChars rest).map (fun p => (ch :: p.1, p.2))
    | none => none
  | ch :: rest =>
    if ch.toNat < 0x20 then none
    else (jsonStringChars rest).map (fun p => (ch :: p.1, p.2))

/-- Leading digit run split off a character list. -/
def spanDigits : List Char → List Char × List Char
  | [] => ([], [])
  | c :: cs =>
    if c.isDigit then
      let p := spanDigits cs
      (c :: p.1, p.2)
    else ([], c :: cs)

/-- Parse a JSON number.  The modelled fragment covers the integral
numbers the pipeline actually carries (counts, totals, page numbers,
statuses); a fraction or exponent part makes the model parser fail. -/
def jsonNumber (cs : List Char) : Option (Int × List Char) :=
  let (neg, cs2) : Bool × List Char :=
    match cs with
    | '-' :: rest => (true, rest)
    | rest => (false, rest)
  match spanDigits cs2 with
  | ([], _) => none
  | (d :: ds, rest) =>
    if d = '0' ∧ ds ≠ [] then none
    else
      match rest with
      | '.' :: _ => none
      | 'e' :: _ => none
      | 'E' :: _ => none
      | _ =>
        let v : Int := digitsVal (d :: ds)
        some (if neg then -v else v, rest)

mutual

/-- Parse one JSON value (fuelled recursion; the fuel in `jsonParse` is
always sufficient). -/
def jsonVal : Nat → List Char → Option (JsValue × List Char)
  | 0, _ => none
  | f + 1, cs =>
    match jsonSkipWs cs with
    | 'n' :: 'u' :: 'l' :: 'l' :: rest => some (.null, rest)
    | 't' :: 'r' :: 'u' :: 'e' :: rest => some (.bool true, rest)
    | 'f' :: 'a' :: 'l' :: 's' :: 'e' :: rest => some (.bool false, rest)
    | '"' :: rest => (jsonStringChars rest).map (fun p => (.str (String.mk p.1), p.2))
    | '[' :: rest =>
      (match jsonSkipWs rest with
       | ']' :: rest2 => some (.arr [], rest2)
       | _ => jsonElems f rest [])
    | '{' :: rest =>
      (match jsonSkipWs rest with
       | '}' :: rest2 => some (.obj [], rest2)
       | _ => jsonMembers f rest [])
    | c :: rest =>
      if c = '-' ∨ c.isDigit then
        (jsonNumber (c :: rest)).map (fun p => (.num (some p.1), p.2))
      else none
    | [] => none

/-- Parse the elements of a non-empty JSON array (after `[`). -/
def jsonElems : Nat → List Char → List JsValue → Option (JsValue × List Char)
  | 0, _, _ => none
  | f + 1, cs, acc =>
    match jsonVal f cs with
    | none => none
    | some (v, rest) =>
      match jsonSkipWs rest with
      | ',' :: rest2 => jsonElems f rest2 (acc ++ [v])
      | ']' :: rest2 => some (.arr (acc ++ [v]), rest2)
      | _ => none

/-- Parse the members of a non-empty JSON object (after `{`). -/
def jsonMembers : Nat → List Char → List (String × JsValue) →
    Option (JsValue × List Char)
  | 0, _, _ => none
  | f + 1, cs, acc =>
    match jsonSkipWs cs with
    | '"' :: rest =>
      match jsonStringChars rest with
      | none => none
      | some (kcs, rest2) =>
        match jsonSkipWs rest2 with
        | ':' :: rest3 =>
          match jsonVal f rest3 with
          | none => none
          | some (v, rest4) =>
            let acc2 := objInsert acc (String.mk kcs) v
            match jsonSkipWs rest4 with
            | ',' :: rest5 => jsonMembers f rest5 acc2
            | '}' :: rest5 => some (.obj acc2, rest5)
            | _ => none
        | _ => none
    | _ => none

end

/-- Model of `JSON.parse`: parse one value and require only whitespace
after it; `none` models a thrown `SyntaxError`. -/
def jsonParse (s : String) : Option JsValue :=
  match jsonVal (2 * s.length + 2) s.toList with
  | some (v, rest) => if jsonSkipWs rest = [] then some v else none
  | none => none

/-- Tenant credentials parsed from the inbound transport headers. -/
structure TenantCredentials where
  token : String
  baseUrl : Option String := none

/-- The provider's canonical API root. -/
def API_BASE_URL : String := "https://api.digitalocean.com/v2"

/-- The three error kinds of the error taxonomy. -/
inductive ErrorKind where
  | authentication : ErrorKind
  | rateLimit : ErrorKind
  | generic : ErrorKind
deriving DecidableEq, Repr

/-- Modelled from the spec: the error classes of `utils/errors` are not
among the provided sources, so `ApiErrorInfo` follows the spec's data
model — kind, message, optional HTTP status, retryability, and (for rate
limits) the retry-after hint.  The message is a `JsValue` because the
generic classifier can propagate a non-string body field. -/
structure ApiErrorInfo where
  kind : ErrorKind
  message : JsValue
  httpStatus : Option Nat := none
  retryable : Bool
  retryAfterSeconds : Option JsNum := none

/-- Modelled from the spec: `AuthenticationError` (missing/invalid token),
non-retryable. -/
def AuthenticationError (msg : String) : ApiErrorInfo :=
  { kind := .authentication, message := .str msg, retryable := false }

/-- Modelled from the spec: `RateLimitError`, retryable, storing its
second constructor argument as `retryAfterSeconds`. -/
def RateLimitError (msg : String) (retryAfterSeconds : JsNum) : ApiErrorInfo :=
  { kind := .rateLimit, message := .str msg, retryable := true,
    retryAfterSeconds := some retryAfterSeconds }

/-- Modelled from the spec: `DigitalOceanApiError`, the generic API error,
carrying the HTTP status; retryability left false by the engine. -/
def DigitalOceanApiError (message : JsValue) (status : Nat) : ApiErrorInfo :=
  { kind := .generic, message := message, httpStatus := some status, retryable := false }

/-- One HTTP response as the request engine observes it: status code, the
two headers it reads (`none` for `headers.get` returning `null`), and the
body text. -/
structure HttpResponse where
  status : Nat
  retryAfterHeader : Option String := none
  contentTypeHeader : Option String := none
  body : String := ""

/-- `response.ok`: status in the inclusive range 200–299. -/
def responseOk (status : Nat) : Bool :=
  200 ≤ status && status ≤ 299

/-- Does the second character list start with the first? -/
def startsWithSub : List Char → List Char → Bool
  | [], _ => true
  | _ :: _, [] => false
  | a :: as, b :: bs => a = b && startsWithSub as bs

/-- `String.prototype.includes`: does `hay` contain `needle`? -/
def containsSub (needle : List Char) : List Char → Bool
  | [] => needle.isEmpty
  | x :: rest => startsWithSub needle (x :: rest) || containsSub needle rest

/-- `contentType?.includes('application/json')`. -/
def contentTypeIncludesJson : Option String → Bool
  | none => false
  | some s => containsSub "application/json".toList s.toList

/-- The error text of the generic (non-2xx) branch:
`JSON.parse` the body and take `errorJson.message || errorJson.id ||
defaultMessage`; any throw inside the `try` (a parse error, or the
property access throwing because the parsed body is `null`) keeps the
default `"API error: <status>"`. -/
def genericErrorMessage (status : Nat) (body : String) : JsValue :=
  let dflt : JsValue := .str ("API error: " ++ toString status)
  match jsonParse body with
  | none => dflt
  | some j =>
    if j.nullish then dflt
    else jsOr (jsMember j "message") (jsOr (jsMember j "id") dflt)

/-- The result of one engine call (after authentication): a decoded
payload, a classified error, or the rejection `response.json()` produces
on a malformed JSON body of a success response. -/
inductive RequestOutcome where
  | ok : JsValue → RequestOutcome
  | err : ApiErrorInfo → RequestOutcome
  | jsonDecodeFailure : RequestOutcome

/-- Status classification of `DigitalOceanClientImpl.request`, checked in
source order: 429, then 401/403, then any other non-2xx, then 204, then
content-type-driven body decoding. -/
def classifyResponse (resp : HttpResponse) : RequestOutcome :=
  if resp.status = 429 then
    .err (RateLimitError "Rate limit exceeded"
      (match resp.retryAfterHeader with
       | some s => if s ≠ "" then jsParseInt s else some 60
       | none => some 60))
  else if resp.status = 401 ∨ resp.status = 403 then
    .err (AuthenticationError "Authentication failed. Check your API token.")
  else if ¬ responseOk resp.status then
    .err (DigitalOceanApiError (genericErrorMessage resp.status resp.body) resp.status)
  else if resp.status = 204 then
    .ok .undefined
  else if contentTypeIncludesJson resp.contentTypeHeader then
    match jsonParse resp.body with
    | some v => .ok v
    | none => .jsonDecodeFailure
  else
    .ok (.str resp.body)

/-- `DigitalOceanClientImpl.getAuthHeaders`: fail with an authentication
error when the token is empty (falsy), otherwise the bearer-token and
content-type headers. -/
def getAuthHeaders (credentials : TenantCredentials) :
    Except ApiErrorInfo (List (String × String)) :=
  if credentials.token = "" then
    .error (AuthenticationError "No token provided. Include X-DigitalOcean-Token header.")
  else
    .ok [("Authorization", "Bearer " ++ credentials.token),
         ("Content-Type", "application/json")]

/-- `DigitalOceanClientImpl.request`, with the network abstracted as the
response the single `fetch` would observe.  The first component counts the
`fetch` calls performed: `getAuthHeaders` runs while the `fetch` arguments
are built, so an empty token aborts with zero network calls. -/
def request (credentials : TenantCredentials) (resp : HttpResponse) :
    Nat × RequestOutcome :=
  match getAuthHeaders credentials with
  | .error e => (0, .err e)
  | .ok _ => (1, classifyResponse resp)

/-- `DigitalOceanClientImpl.extractPageNumber`: parse the URL, read its
`page` search parameter, and `parseInt` it when truthy; any `URL`
constructor throw is caught and yields `undefined` (`none`). -/
def extractPageNumber (url : String) : Option JsNum :=
  if urlParseOk url then
    match searchParamsGet ((urlQuery url).getD "") "page" with
    | none => none
    | some page => if page ≠ "" then some (jsParseInt page) else none
  else none

/-- The normalized page descriptor produced by
`DigitalOceanClientImpl.parsePaginatedResponse`.  `items`, `count`,
`total` and `nextPage` keep the JavaScript values the source computes
(`count` is `undefined` when the cast list has no `length`). -/
structure PaginatedResponse where
  items : JsValue
  count : JsValue
  total : JsValue
  hasMore : Bool
  nextPage : JsValue

/-- `DigitalOceanClientImpl.parsePaginatedResponse`: `items` is
`response[key] || []`, `count` its `length`, `total` is `meta?.total`,
`hasMore` is `!!links?.pages?.next`, and `nextPage` applies
`extractPageNumber` to the `next` URL when that URL is truthy. -/
def parsePaginatedResponse (response : JsValue) (key : String) : PaginatedResponse :=
  let items := jsOr (jsMember response key) (.arr [])
  let meta := jsMember response "meta"
  let links := jsMember response "links"
  let next := jsOpt (jsOpt links "pages") "next"
  { items := items
    count := jsMember items "length"
    total := jsOpt meta "total"
    hasMore := next.truthy
    nextPage :=
      if next.truthy then
        match extractPageNumber (match next with | .str u => u | v => jsToString v) with
        | some n => .num n
        | none => .undefined
      else .undefined }

/-- Does `buildQueryString` keep a parameter?  Dropped exactly when the
value is strictly `undefined`, `null`, or the empty string. -/
def keepsParam : JsValue → Bool
  | .undefined => false
  | .null => false
  | .str s => s ≠ ""
  | _ => true

/-- `URLSearchParams.set`: overwrite the first pair with the given name
in place and drop any later pairs with that name, else append. -/
def urlSearchParamsSet (ps : List (String × String)) (k v : String) :
    List (String × String) :=
  match ps with
  | [] => [(k, v)]
  | p :: rest =>
    if p.1 = k then (k, v) :: rest.filter (fun q => q.1 ≠ k)
    else p :: urlSearchParamsSet rest k v

/-- `URLSearchParams.toString()`: the `application/x-www-form-urlencoded`
serialization of the pairs. -/
def urlSearchParamsToString (ps : List (String × String)) : String :=
  String.intercalate "&" (ps.map (fun p => formUrlEncode p.1 ++ "=" ++ formUrlEncode p.2))

/-- `DigitalOceanClientImpl.buildQueryString`: filter out entries whose
value is `undefined`, `null` or `""`; return `""` when nothing survives,
otherwise `?` followed by the `URLSearchParams` built by `set`-ing each
surviving entry in order. -/
def buildQueryString (params : List (String × JsValue)) : String :=
  let filtered := params.filter (fun p => keepsParam p.2)
  if filtered.length = 0 then ""
  else
    let searchParams := filtered.foldl
      (fun acc p => urlSearchParamsSet acc p.1 (jsToString p.2)) []
    "?" ++ urlSearchParamsToString searchParams

/-- `lines.join('\n')`: the newline join used by every formatter. -/
def joinLines : List String → String
  | [] => ""
  | [a] => a
  | a :: b :: rest => a ++ "\n" ++ joinLines (b :: rest)

/-- Strict equality of a value against a string literal (`v === 's'`). -/
def jsIsStr (v : JsValue) (s : String) : Bool :=
  match v with
  | .str t => t = s
  | _ => false

/-- Strict equality against `undefined` (`v !== undefined` is its negation). -/
def jsIsUndefined : JsValue → Bool
  | .undefined => true
  | _ => false

/-- `capitalize` of `formatters.ts`: upper-case the first character. -/
def capitalize (str : String) : String :=
  match str.toList with
  | [] => ""
  | c :: rest => String.mk (c.toUpper :: rest)

/-- `formatKey` of `formatters.ts`: snake_case to Title Case. -/
def formatKey (key : String) : String :=
  String.intercalate " " ((splitOnChar '_' key.toList).map (fun w => capitalize (String.mk w)))

/-- `entityType.replace(/s$/, '')`: drop one trailing `s` when present. -/
def singularized (s : String) : String :=
  if s.endsWith "s" then s.dropRight 1 else s

/-- `s.substring(0, n)`: the first `n` characters (JavaScript counts
UTF-16 units; the two coincide on the ASCII cells exercised here). -/
def jsSubstring0 (s : String) (n : Nat) : String :=
  String.mk (s.toList.take n)

/-- One cell of the generic table: `-` for `null`/`undefined`, the literal
`[object]` for any remaining `typeof === 'object'` value (plain object or
array), otherwise the stringified value cut to its first 50 characters
(`String(val).substring(0, 50)`). -/
def genericCell : JsValue → String
  | .null => "-"
  | .undefined => "-"
  | .arr _ => "[object]"
  | .obj _ => "[object]"
  | v => jsSubstring0 (jsToString v) 50

/-- `Object.keys` in insertion order (index keys of arrays and strings;
the rows rendered by the formatter are plain objects). -/
def jsObjectKeys : JsValue → List String
  | .obj fs => fs.map (fun p => p.1)
  | .arr xs => (List.range xs.length).map (fun i => toString i)
  | .str s => (List.range s.length).map (fun i => toString i)
  | _ => []

/-- `formatGenericTable` of `formatters.ts`: header from the first six
keys of the first item, a `---` separator row, then one row per item. -/
def formatGenericTable (items : List JsValue) : String :=
  match items with
  | [] => "_No items_"
  | first :: _ =>
    let keys := (jsObjectKeys first).take 6
    let header := "| " ++ String.intercalate " | " keys ++ " |"
    let sep := "|" ++ String.intercalate "|" (keys.map (fun _ => "---")) ++ "|"
    let rows := items.map (fun item =>
      "| " ++ String.intercalate " | " (keys.map (fun k => genericCell (jsMember item k))) ++ " |")
    joinLines (header :: sep :: rows)

/-- `Array.prototype.find` for the public-IPv4 lookup of the droplets
table: first element whose `type` is the string `public`, `undefined`
when the receiver is not an array or nothing matches. -/
def jsFindPublicV4 (v4 : JsValue) : JsValue :=
  match v4 with
  | .arr xs => (xs.find? (fun n => jsIsStr (jsMember n "type") "public")).getD .undefined
  | _ => .undefined

/-- Optional-chained `xs?.join(sep)`: `undefined` through a nullish
receiver, else the join (stringifying elements, nullish elements empty). -/
def jsOptJoin (v : JsValue) (sep : String) : JsValue :=
  match v with
  | .arr xs => .str (String.intercalate sep (jsToStringElems xs))
  | _ => .undefined

/-- `formatDropletsTable` of `formatters.ts`. -/
def formatDropletsTable (droplets : List JsValue) : String :=
  let header := ["| ID | Name | Status | IP | Region | Size |",
                 "|---|---|---|---|---|---|"]
  let rows := droplets.map (fun droplet =>
    let publicIp := jsOr
      (jsOpt (jsFindPublicV4 (jsOpt (jsOpt droplet "networks") "v4")) "ip_address")
      (.str "-")
    "| " ++ jsToString (jsMember droplet "id") ++
    " | " ++ jsToString (jsMember droplet "name") ++
    " | " ++ jsToString (jsMember droplet "status") ++
    " | " ++ jsToString publicIp ++
    " | " ++ jsToString (jsOr (jsOpt (jsMember droplet "region") "slug") (.str "-")) ++
    " | " ++ jsToString (jsMember droplet "size_slug") ++ " |")
  joinLines (header ++ rows)

/-- `formatVolumesTable` of `formatters.ts`. -/
def formatVolumesTable (volumes : List JsValue) : String :=
  let header := ["| ID | Name | Size (GB) | Region | Attached To |",
                 "|---|---|---|---|---|"]
  let rows := volumes.map (fun volume =>
    let attachedTo := jsOr (jsOptJoin (jsMember volume "droplet_ids") ", ")
      (.str "Not attached")
    "| " ++ jsToString (jsMember volume "id") ++
    " | " ++ jsToString (jsMember volume "name") ++
    " | " ++ jsToString (jsMember volume "size_gigabytes") ++
    " | " ++ jsToString (jsOr (jsOpt (jsMember volume "region") "slug") (.str "-")) ++
    " | " ++ jsToString attachedTo ++ " |")
  joinLines (header ++ rows)

/-- `formatFirewallsTable` of `formatters.ts`. -/
def formatFirewallsTable (firewalls : List JsValue) : String :=
  let header := ["| ID | Name | Status | Droplets | Inbound Rules | Outbound Rules |",
                 "|---|---|---|---|---|---|"]
  let rows := firewalls.map (fun firewall =>
    "| " ++ jsToString (jsMember firewall "id") ++
    " | " ++ jsToString (jsMember firewall "name") ++
    " | " ++ jsToString (jsMember firewall "status") ++
    " | " ++ jsToString (jsOr (jsOpt (jsMember firewall "droplet_ids") "length") (.num (some 0))) ++
    " | " ++ jsToString (jsOr (jsOpt (jsMember firewall "inbound_rules") "length") (.num (some 0))) ++
    " | " ++ jsToString (jsOr (jsOpt (jsMember firewall "outbound_rules") "length") (.num (some 0))) ++ " |")
  joinLines (header ++ rows)

/-- `formatLoadBalancersTable` of `formatters.ts`. -/
def formatLoadBalancersTable (loadBalancers : List JsValue) : String :=
  let header := ["| ID | Name | IP | Status | Region | Droplets |",
                 "|---|---|---|---|---|---|"]
  let rows := loadBalancers.map (fun lb =>
    "| " ++ jsToString (jsMember lb "id") ++
    " | " ++ jsToString (jsMember lb "name") ++
    " | " ++ jsToString (jsOr (jsMember lb "ip") (.str "-")) ++
    " | " ++ jsToString (jsMember lb "status") ++
    " | " ++ jsToString (jsOr (jsOpt (jsMember lb "region") "slug") (.str "-")) ++
    " | " ++ jsToString (jsOr (jsOpt (jsMember lb "droplet_ids") "length") (.num (some 0))) ++ " |")
  joinLines (header ++ rows)

/-- `formatVPCsTable` of `formatters.ts`. -/
def formatVPCsTable (vpcs : List JsValue) : String :=
  let header := ["| ID | Name | Region | IP Range | Default |",
                 "|---|---|---|---|---|"]
  let rows := vpcs.map (fun vpc =>
    "| " ++ jsToString (jsMember vpc "id") ++
    " | " ++ jsToString (jsMember vpc "name") ++
    " | " ++ jsToString (jsMember vpc "region") ++
    " | " ++ jsToString (jsMember vpc "ip_range") ++
    " | " ++ (if (jsMember vpc "default").truthy then "Yes" else "No") ++ " |")
  joinLines (header ++ rows)

/-- `formatKubernetesClustersTable` of `formatters.ts`. -/
def formatKubernetesClustersTable (clusters : List JsValue) : String :=
  let header := ["| ID | Name | Region | Version | Status | Node Pools |",
                 "|---|---|---|---|---|---|"]
  let rows := clusters.map (fun cluster =>
    "| " ++ jsToString (jsMember cluster "id") ++
    " | " ++ jsToString (jsMember cluster "name") ++
    " | " ++ jsToString (jsMember cluster "region") ++
    " | " ++ jsToString (jsMember cluster "version") ++
    " | " ++ jsToString (jsOr (jsOpt (jsMember cluster "status") "state") (.str "-")) ++
    " | " ++ jsToString (jsOr (jsOpt (jsMember cluster "node_pools") "length") (.num (some 0))) ++ " |")
  joinLines (header ++ rows)

/-- `formatDatabasesTable` of `formatters.ts`. -/
def formatDatabasesTable (databases : List JsValue) : String :=
  let header := ["| ID | Name | Engine | Version | Size | Region | Status |",
                 "|---|---|---|---|---|---|---|"]
  let rows := databases.map (fun db =>
    "| " ++ jsToString (jsMember db "id") ++
    " | " ++ jsToString (jsMember db "name") ++
    " | " ++ jsToString (jsMember db "engine") ++
    " | " ++ jsToString (jsMember db "version") ++
    " | " ++ jsToString (jsMember db "size") ++
    " | " ++ jsToString (jsMember db "region") ++
    " | " ++ jsToString (jsMember db "status") ++ " |")
  joinLines (header ++ rows)

/-- `formatAppsTable` of `formatters.ts`. -/
def formatAppsTable (apps : List JsValue) : String :=
  let header := ["| ID | Name | Region | Tier | Live URL |",
                 "|---|---|---|---|---|"]
  let rows := apps.map (fun app =>
    "| " ++ jsToString (jsMember app "id") ++
    " | " ++ jsToString (jsOr (jsOpt (jsMember app "spec") "name") (.str "-")) ++
    " | " ++ jsToString (jsOr (jsOpt (jsMember app "region") "slug") (.str "-")) ++
    " | " ++ jsToString (jsOr (jsMember app "tier_slug") (.str "-")) ++
    " | " ++ jsToString (jsOr (jsMember app "live_url") (.str "-")) ++ " |")
  joinLines (header ++ rows)

/-- `isPaginatedResponse` of `formatters.ts`: a non-null `object` with an
`items` member holding an array.  (A bare array is `typeof 'object'` but
has no `items` property, so it never satisfies the guard.) -/
def isPaginatedResponse (data : JsValue) : Bool :=
  match data with
  | .obj fs =>
    match fs.find? (fun p => p.1 = "items") with
    | some p => match p.2 with | .arr _ => true | _ => false
    | none => false
  | _ => false

/-- `formatPaginatedAsMarkdown` of `formatters.ts`: heading, summary line
(with the total when `data.total !== undefined`), optional has-more line,
then either the no-items notice or the resource-family table chosen by
the `switch` (the generic table for unrecognized tags).  The
`isPaginatedResponse` guard at the call site guarantees `data.items` is
an array. -/
def formatPaginatedAsMarkdown (data : JsValue) (entityType : String) : String :=
  let items := match jsMember data "items" with | .arr xs => xs | _ => []
  let showing :=
    if jsIsUndefined (jsMember data "total") then
      "**Showing:** " ++ jsToString (jsMember data "count")
    else
      "**Total:** " ++ jsToString (jsMember data "total") ++
        " | **Showing:** " ++ jsToString (jsMember data "count")
  let headLines :=
    ["## " ++ capitalize entityType, "", showing] ++
    (if (jsMember data "hasMore").truthy then
      ["**More available:** Yes (next page: " ++ jsToString (jsMember data "nextPage") ++ ")"]
     else []) ++ [""]
  if items.length = 0 then
    joinLines (headLines ++ ["_No items found._"])
  else
    let table :=
      if entityType = "droplets" then formatDropletsTable items
      else if entityType = "volumes" then formatVolumesTable items
      else if entityType = "firewalls" then formatFirewallsTable items
      else if entityType = "load_balancers" then formatLoadBalancersTable items
      else if entityType = "vpcs" then formatVPCsTable items
      else if entityType = "kubernetes_clusters" then formatKubernetesClustersTable items
      else if entityType = "databases" then formatDatabasesTable items
      else if entityType = "apps" then formatAppsTable items
      else formatGenericTable items
    joinLines (headLines ++ [table])

/-- `formatArrayAsMarkdown` of `formatters.ts`: the generic table,
ignoring the resource-family tag. -/
def formatArrayAsMarkdown (data : List JsValue) (_entityType : String) : String :=
  formatGenericTable data

/-- `formatObjectAsMarkdown` of `formatters.ts`: singularized heading and
one `**Key:** value` line per non-nullish field, nested objects and
arrays rendered as fenced pretty-printed JSON blocks. -/
def formatObjectAsMarkdown (data : List (String × JsValue)) (entityType : String) : String :=
  let fieldLines := data.flatMap (fun kv =>
    match kv.2 with
    | .null => []
    | .undefined => []
    | .arr xs =>
      ["**" ++ formatKey kv.1 ++ ":**", "```json",
       (jsonStringify (.arr xs)).getD "undefined", "```"]
    | .obj fs =>
      ["**" ++ formatKey kv.1 ++ ":**", "```json",
       (jsonStringify (.obj fs)).getD "undefined", "```"]
    | v => ["**" ++ formatKey kv.1 ++ ":** " ++ jsToString v])
  joinLines (("## " ++ capitalize (singularized entityType)) :: "" :: fieldLines)

/-- `formatAsMarkdown` of `formatters.ts`: dispatch in source order —
paginated guard, then bare array, then non-null object, then `String`. -/
def formatAsMarkdown (data : JsValue) (entityType : String) : String :=
  if isPaginatedResponse data then formatPaginatedAsMarkdown data entityType
  else
    match data with
    | .arr xs => formatArrayAsMarkdown xs entityType
    | .obj fs => formatObjectAsMarkdown fs entityType
    | v => jsToString v

/-- The two presentation modes of `formatResponse`. -/
inductive ResponseFormat where
  | json : ResponseFormat
  | markdown : ResponseFormat
deriving DecidableEq, Repr

/-- The text payload `formatResponse` wraps into the tool response:
markdown rendering or `JSON.stringify(data, null, 2)`. -/
def formatResponse (data : JsValue) (format : ResponseFormat) (entityType : String) : String :=
  match format with
  | .markdown => formatAsMarkdown data entityType
  | .json => (jsonStringify data).getD "undefined"

/-- Digits are not `parseInt` whitespace. -/
lemma jsIsSpace_of_isDigit {c : Char} (h : c.isDigit = true) : jsIsSpace c = false := by
  simp only [Char.isDigit, decide_eq_true_eq, Bool.and_eq_true] at h
  simp only [jsIsSpace, Bool.or_eq_false_iff, decide_eq_false_iff_not]
  refine ⟨⟨⟨⟨⟨?_, ?_⟩, ?_⟩, ?_⟩, ?_⟩, ?_⟩ <;>
    · rintro rfl
      revert h
      decide

/-- `takeDigits` keeps an all-digit list whole. -/
lemma takeDigits_eq_self {cs : List Char} (h : ∀ c ∈ cs, c.isDigit = true) :
    takeDigits cs = cs := by
  induction cs with
  | nil => rfl
  | cons c cs ih =>
    simp [takeDigits, h c (by simp), ih (fun x hx => h x (by simp [hx]))]

/-- On a non-empty all-digit string, `parseInt` returns exactly the decimal
value of the digits. -/
lemma jsParseInt_digits {s : String} (hne : s.toList ≠ [])
    (h : ∀ c ∈ s.toList, c.isDigit = true) :
    jsParseInt s = some ((digitsVal s.toList : Int)) := by
  unfold jsParseInt
  obtain ⟨c, rest, hcs⟩ : ∃ c rest, s.toList = c :: rest := by
    cases hcs : s.toList with
    | nil => exact absurd hcs hne
    | cons a l => exact ⟨a, l, rfl⟩
  rw [hcs]
  have hc : c.isDigit = true := h c (by rw [hcs]; simp)
  have hdrop : (c :: rest).dropWhile jsIsSpace = c :: rest := by
    simp [List.dropWhile, jsIsSpace_of_isDigit hc]
  rw [hdrop]
  have hminus : c ≠ '-' := by rintro rfl; revert hc; decide
  have hplus : c ≠ '+' := by rintro rfl; revert hc; decide
  have htake : takeDigits (c :: rest) = c :: rest :=
    takeDigits_eq_self (by rw [← hcs]; exact h)
  dsimp only
  have hmatch :
      (match c :: rest with
        | '-' :: rest => ((true : Bool), rest)
        | '+' :: rest => ((false : Bool), rest)
        | rest => ((false : Bool), rest)) = ((false : Bool), c :: rest) := by
    split
    next heq => injection heq with h1 _; exact absurd h1 hminus
    next heq => injection heq with h1 _; exact absurd h1 hplus
    next => rfl
  rw [hmatch, htake]
  simp

/-- Claim C1 (amended): a 429 response always yields the `RateLimit` error
with its fixed message and `retryable = true`; `retryAfterSeconds` is 60
when the `Retry-After` header is absent or empty, `parseInt` of the header
otherwise — in particular the header's exact decimal value when it is a
non-empty digit string (the claim's stated 60-fallback for a present but
non-numeric header does not hold; see the counterexample). -/
theorem rate_limit_retry_after (resp : HttpResponse) (h429 : resp.status = 429) :
    ∃ e : ApiErrorInfo,
      classifyResponse resp = .err e ∧
      e.kind = .rateLimit ∧ e.retryable = true ∧ e.message = .str "Rate limit exceeded" ∧
      ((resp.retryAfterHeader = none ∨ resp.retryAfterHeader = some "") →
        e.retryAfterSeconds = some (some 60)) ∧
      (∀ s, resp.retryAfterHeader = some s → s ≠ "" →
        e.retryAfterSeconds = some (jsParseInt s)) ∧
      (∀ s, resp.retryAfterHeader = some s → s.toList ≠ [] →
        (∀ c ∈ s.toList, c.isDigit = true) →
        e.retryAfterSeconds = some (some ((digitsVal s.toList : Int)))) := by
  refine ⟨RateLimitError "Rate limit exceeded"
    (match resp.retryAfterHeader with
     | some s => if s ≠ "" then jsParseInt s else some 60
     | none => some 60), ?_, rfl, rfl, rfl, ?_, ?_, ?_⟩
  · unfold classifyResponse
    rw [if_pos h429]
  · rintro (hh | hh) <;> simp [RateLimitError, hh]
  · intro s hs hne
    simp [RateLimitError, hs, hne]
  · intro s hs hne hdig
    have hne' : s ≠ "" := by
      intro h0
      rw [h0] at hne
      exact hne rfl
    simp [RateLimitError, hs, hne', jsParseInt_digits hne hdig]

/-- Claim C1 witness: a 429 response carrying `Retry-After: 120` hits the
amended theorem; in particular its retry hint is the parsed 120. -/
theorem rate_limit_retry_after_witness :
    (⟨429, some "120", none, ""⟩ : HttpResponse).status = 429 ∧
    ∃ e : ApiErrorInfo,
      classifyResponse ⟨429, some "120", none, ""⟩ = .err e ∧
      e.kind = .rateLimit ∧ e.retryable = true ∧ e.message = .str "Rate limit exceeded" ∧
      (((⟨429, some "120", none, ""⟩ : HttpResponse).retryAfterHeader = none ∨
        (⟨429, some "120", none, ""⟩ : HttpResponse).retryAfterHeader = some "") →
        e.retryAfterSeconds = some (some 60)) ∧
      (∀ s, (⟨429, some "120", none, ""⟩ : HttpResponse).retryAfterHeader = some s → s ≠ "" →
        e.retryAfterSeconds = some (jsParseInt s)) ∧
      (∀ s, (⟨429, some "120", none, ""⟩ : HttpResponse).retryAfterHeader = some s →
        s.toList ≠ [] → (∀ c ∈ s.toList, c.isDigit = true) →
        e.retryAfterSeconds = some (some ((digitsVal s.toList : Int)))) :=
  ⟨rfl, rate_limit_retry_after ⟨429, some "120", none, ""⟩ rfl⟩

/-- Claim C1 counterexample: a 429 response whose `Retry-After` header is
present but non-numeric (`"soon"`) produces `retryAfterSeconds = NaN`,
not the 60 the claim requires for that case. -/
theorem rate_limit_retry_after_counterexample :
    classifyResponse ⟨429, some "soon", none, ""⟩ =
      .err (RateLimitError "Rate limit exceeded" none) ∧
    (RateLimitError "Rate limit exceeded" none).retryAfterSeconds ≠ some (some 60) :=
  ⟨rfl, by simp [RateLimitError]⟩

/-- Claim C4 (confirmed): with an empty credential token, `request` fails
with an `Authentication`-kind error and performs zero fetch calls —
`getAuthHeaders` throws while the fetch arguments are being built. -/
theorem empty_token_no_network (credentials : TenantCredentials) (resp : HttpResponse)
    (h : credentials.token = "") :
    (request credentials resp).1 = 0 ∧
    ∃ e : ApiErrorInfo, (request credentials resp).2 = .err e ∧
      e.kind = .authentication ∧
      e.message = .str "No token provided. Include X-DigitalOcean-Token header." := by
  have hreq : request credentials resp =
      (0, .err (AuthenticationError "No token provided. Include X-DigitalOcean-Token header.")) := by
    unfold request getAuthHeaders
    rw [if_pos h]
  rw [hreq]
  exact ⟨rfl, _, rfl, rfl, rfl⟩

/-- Claim C4 witness: a concrete empty-token credential against a healthy
200 response still produces zero fetches and the authentication error. -/
theorem empty_token_no_network_witness :
    (⟨"", none⟩ : TenantCredentials).token = "" ∧
    ((request ⟨"", none⟩ ⟨200, none, none, ""⟩).1 = 0 ∧
     ∃ e : ApiErrorInfo, (request ⟨"", none⟩ ⟨200, none, none, ""⟩).2 = .err e ∧
       e.kind = .authentication ∧
       e.message = .str "No token provided. Include X-DigitalOcean-Token header.") :=
  ⟨rfl, empty_token_no_network ⟨"", none⟩ ⟨200, none, none, ""⟩ rfl⟩

/-- Claim C6 (confirmed): a 401 or 403 response always classifies as the
`Authentication` error with its fixed message and `retryable = false`,
whatever the body and headers contain; the 429 branch is checked first
but cannot match these statuses. -/
theorem auth_error_on_401_403 (resp : HttpResponse)
    (h : resp.status = 401 ∨ resp.status = 403) :
    classifyResponse resp =
      .err (AuthenticationError "Authentication failed. Check your API token.") ∧
    (AuthenticationError "Authentication failed. Check your API token.").kind = .authentication ∧
    (AuthenticationError "Authentication failed. Check your API token.").retryable = false := by
  have h429 : ¬ resp.status = 429 := by
    rcases h with h | h <;> rw [h] <;> decide
  unfold classifyResponse
  rw [if_neg h429, if_pos h]
  exact ⟨rfl, rfl, rfl⟩

/-- Claim C6 witness: status 401 with an arbitrary JSON body is classified
as the fixed authentication error. -/
theorem auth_error_on_401_403_witness :
    ((⟨401, none, none, "\x7b\x7d"⟩ : HttpResponse).status = 401 ∨
     (⟨401, none, none, "\x7b\x7d"⟩ : HttpResponse).status = 403) ∧
    (classifyResponse ⟨401, none, none, "\x7b\x7d"⟩ =
      .err (AuthenticationError "Authentication failed. Check your API token.") ∧
    (AuthenticationError "Authentication failed. Check your API token.").kind = .authentication ∧
    (AuthenticationError "Authentication failed. Check your API token.").retryable = false) :=
  ⟨Or.inl rfl, auth_error_on_401_403 ⟨401, none, none, "\x7b\x7d"⟩ (Or.inl rfl)⟩

/-- Claim C7 (confirmed): a 204 response succeeds with the `undefined`
payload — no body decode is attempted, whatever the declared content-type
and body (in particular it can never surface the decode failure a
malformed JSON body would otherwise cause). -/
theorem status_204_empty_success (resp : HttpResponse) (h : resp.status = 204) :
    classifyResponse resp = .ok .undefined ∧
    classifyResponse resp ≠ .jsonDecodeFailure := by
  have h429 : ¬ resp.status = 429 := by rw [h]; decide
  have hauth : ¬ (resp.status = 401 ∨ resp.status = 403) := by rw [h]; decide
  have hok : ¬ ¬ (responseOk resp.status = true) := by rw [h]; decide
  have heq : classifyResponse resp = .ok .undefined := by
    unfold classifyResponse
    rw [if_neg h429, if_neg hauth, if_neg hok, if_pos h]
  refine ⟨heq, ?_⟩
  rw [heq]
  intro hcontra
  exact RequestOutcome.noConfusion hcontra

/-- Claim C7 witness: a 204 response that declares JSON and carries an
unparseable body still succeeds with the `undefined` payload. -/
theorem status_204_empty_success_witness :
    (⟨204, none, some "application/json", "not json"⟩ : HttpResponse).status = 204 ∧
    (classifyResponse ⟨204, none, some "application/json", "not json"⟩ = .ok .undefined ∧
     classifyResponse ⟨204, none, some "application/json", "not json"⟩ ≠ .jsonDecodeFailure) :=
  ⟨rfl, status_204_empty_success ⟨204, none, some "application/json", "not json"⟩ rfl⟩

/-- Claim C3 (confirmed): the normalizer's `count` is always the length of
`items`, where `items` is the named field's array (or `[]` when the field
is absent), and `total` is exactly `meta.total` — the field's value when
the envelope carries a `meta` object, `undefined` when `meta` is missing
or null. -/
theorem pagination_count_invariant (response : JsValue) (key : String) :
    (jsMember response key = .undefined →
      (parsePaginatedResponse response key).items = .arr [] ∧
      (parsePaginatedResponse response key).count = .num (some 0)) ∧
    (∀ xs : List JsValue, jsMember response key = .arr xs →
      (parsePaginatedResponse response key).items = .arr xs ∧
      (parsePaginatedResponse response key).count = .num (some ((xs.length : Int)))) ∧
    (∀ fs : List (String × JsValue), jsMember response "meta" = .obj fs →
      (parsePaginatedResponse response key).total = jsMember (.obj fs) "total") ∧
    ((jsMember response "meta").nullish = true →
      (parsePaginatedResponse response key).total = .undefined) := by
  refine ⟨?_, ?_, ?_, ?_⟩
  · intro h
    simp only [parsePaginatedResponse]
    rw [h]
    simp [jsOr, JsValue.truthy, jsMember]
  · intro xs h
    simp only [parsePaginatedResponse]
    rw [h]
    simp [jsOr, JsValue.truthy, jsMember]
  · intro fs h
    simp only [parsePaginatedResponse]
    rw [h]
    simp [jsOpt, JsValue.nullish]
  · intro h
    simp only [parsePaginatedResponse, jsOpt]
    rw [h]
    simp

/-- Claim C3 witness: on a concrete envelope with one droplet and
`meta.total = 50`, the descriptor reports `count = 1` and `total = 50`. -/
theorem pagination_count_invariant_witness :
    (parsePaginatedResponse
      (.obj [("droplets", .arr [.obj [("id", .num (some 1))]]),
             ("meta", .obj [("total", .num (some 50))])]) "droplets").count =
      .num (some 1) ∧
    (parsePaginatedResponse
      (.obj [("droplets", .arr [.obj [("id", .num (some 1))]]),
             ("meta", .obj [("total", .num (some 50))])]) "droplets").total =
      .num (some 50) := by
  have h := pagination_count_invariant
    (.obj [("droplets", .arr [.obj [("id", .num (some 1))]]),
           ("meta", .obj [("total", .num (some 50))])]) "droplets"
  refine ⟨?_, ?_⟩
  · exact (h.2.1 [.obj [("id", .num (some 1))]] rfl).2
  · rw [h.2.2.1 [("total", .num (some 50))] rfl]
    rfl

/-- Claim C2 (amended): when the `links.pages.next` value is falsy (absent,
or the empty string), `hasMore` is false and `nextPage` is absent; when it
is a non-empty string, `hasMore` is true and `nextPage` is absent exactly
when `extractPageNumber` yields `undefined` (URL parse failure, or `page`
parameter missing or empty) — but a present, non-empty, non-numeric `page`
parameter yields `nextPage = NaN`, not an absent `nextPage` (see the
counterexample).  The model is total, so no input raises. -/
theorem pagination_next_page (response : JsValue) (key : String) :
    ((jsOpt (jsOpt (jsMember response "links") "pages") "next").truthy = false →
      (parsePaginatedResponse response key).hasMore = false ∧
      (parsePaginatedResponse response key).nextPage = .undefined) ∧
    (∀ u, jsOpt (jsOpt (jsMember response "links") "pages") "next" = .str u → u ≠ "" →
      extractPageNumber u = none →
      (parsePaginatedResponse response key).hasMore = true ∧
      (parsePaginatedResponse response key).nextPage = .undefined) ∧
    (∀ u, jsOpt (jsOpt (jsMember response "links") "pages") "next" = .str u → u ≠ "" →
      extractPageNumber u = some none →
      (parsePaginatedResponse response key).hasMore = true ∧
      (parsePaginatedResponse response key).nextPage = .num none) ∧
    (∀ u n, jsOpt (jsOpt (jsMember response "links") "pages") "next" = .str u → u ≠ "" →
      extractPageNumber u = some (some n) →
      (parsePaginatedResponse response key).hasMore = true ∧
      (parsePaginatedResponse response key).nextPage = .num (some n)) ∧
    (∀ u, urlParseOk u = false → extractPageNumber u = none) ∧
    (∀ u, urlParseOk u = true →
      searchParamsGet ((urlQuery u).getD "") "page" = none → extractPageNumber u = none) ∧
    (∀ u p, urlParseOk u = true →
      searchParamsGet ((urlQuery u).getD "") "page" = some p → p ≠ "" →
      extractPageNumber u = some (jsParseInt p)) := by
  refine ⟨?_, ?_, ?_, ?_, ?_, ?_, ?_⟩
  · intro hfalse
    simp only [parsePaginatedResponse]
    rw [hfalse]
    simp
  · intro u hnext hu hext
    simp only [parsePaginatedResponse]
    rw [hnext]
    simp [JsValue.truthy, hu, hext]
  · intro u hnext hu hext
    simp only [parsePaginatedResponse]
    rw [hnext]
    simp [JsValue.truthy, hu, hext]
  · intro u n hnext hu hext
    simp only [parsePaginatedResponse]
    rw [hnext]
    simp [JsValue.truthy, hu, hext]
  · intro u hurl
    simp [extractPageNumber, hurl]
  · intro u hurl hget
    simp [extractPageNumber, hurl, hget]
  · intro u p hurl hget hp
    simp [extractPageNumber, hurl, hget, hp]

/-- Claim C2 witness: a well-formed `next` URL with `page=3` gives
`hasMore = true` and `nextPage = 3`; an envelope without a `next` link
gives `hasMore = false` and no `nextPage`. -/
theorem pagination_next_page_witness :
    ((parsePaginatedResponse
        (.obj [("droplets", .arr []),
               ("links", .obj [("pages", .obj [("next",
                 .str "https://api.digitalocean.com/v2/droplets?page=3")])])])
        "droplets").hasMore = true ∧
     (parsePaginatedResponse
        (.obj [("droplets", .arr []),
               ("links", .obj [("pages", .obj [("next",
                 .str "https://api.digitalocean.com/v2/droplets?page=3")])])])
        "droplets").nextPage = .num (some 3)) ∧
    ((parsePaginatedResponse (.obj [("droplets", .arr [])]) "droplets").hasMore = false ∧
     (parsePaginatedResponse (.obj [("droplets", .arr [])]) "droplets").nextPage = .undefined) := by
  constructor
  · exact (pagination_next_page
      (.obj [("droplets", .arr []),
             ("links", .obj [("pages", .obj [("next",
               .str "https://api.digitalocean.com/v2/droplets?page=3")])])])
      "droplets").2.2.2.1 "https://api.digitalocean.com/v2/droplets?page=3" 3 rfl
      (by decide) rfl
  · exact (pagination_next_page (.obj [("droplets", .arr [])]) "droplets").1 rfl

/-- Claim C2 counterexample: a present, well-formed `next` URL whose `page`
parameter is non-numeric (`page=abc`) produces `nextPage = NaN` — a number
value, not the absent `nextPage` the claim requires. -/
theorem pagination_next_page_counterexample :
    (parsePaginatedResponse
      (.obj [("droplets", .arr []),
             ("links", .obj [("pages", .obj [("next",
               .str "https://api.digitalocean.com/v2/droplets?page=abc")])])])
      "droplets").hasMore = true ∧
    (parsePaginatedResponse
      (.obj [("droplets", .arr []),
             ("links", .obj [("pages", .obj [("next",
               .str "https://api.digitalocean.com/v2/droplets?page=abc")])])])
      "droplets").nextPage = .num none ∧
    (parsePaginatedResponse
      (.obj [("droplets", .arr []),
             ("links", .obj [("pages", .obj [("next",
               .str "https://api.digitalocean.com/v2/droplets?page=abc")])])])
      "droplets").nextPage ≠ .undefined := by
  refine ⟨rfl, rfl, ?_⟩
  have h2 : (parsePaginatedResponse
      (.obj [("droplets", .arr []),
             ("links", .obj [("pages", .obj [("next",
               .str "https://api.digitalocean.com/v2/droplets?page=abc")])])])
      "droplets").nextPage = .num none := rfl
  rw [h2]
  intro hc
  exact JsValue.noConfusion hc

/-- Claim C8 (amended): any non-2xx status other than 429/401/403 yields a
`Generic` error carrying that HTTP status; its message is the body's
`message` field when that field is present and truthy, else the body's
`id` field when present and truthy, else `API error: <status>` — also used
when the body fails to parse as JSON or parses to `null` (where the
property access throws and is caught).  A present-but-falsy `message`
(for instance the empty string) is skipped, contrary to the claim's
plain presence test; see the counterexample. -/
theorem generic_error_classification (resp : HttpResponse)
    (h429 : resp.status ≠ 429)
    (hauth : ¬ (resp.status = 401 ∨ resp.status = 403))
    (hnotok : responseOk resp.status = false) :
    classifyResponse resp =
      .err (DigitalOceanApiError (genericErrorMessage resp.status resp.body) resp.status) ∧
    (DigitalOceanApiError (genericErrorMessage resp.status resp.body) resp.status).kind =
      .generic ∧
    (DigitalOceanApiError (genericErrorMessage resp.status resp.body) resp.status).httpStatus =
      some resp.status ∧
    (jsonParse resp.body = none →
      genericErrorMessage resp.status resp.body =
        .str ("API error: " ++ toString resp.status)) ∧
    (∀ j, jsonParse resp.body = some j → j.nullish = true →
      genericErrorMessage resp.status resp.body =
        .str ("API error: " ++ toString resp.status)) ∧
    (∀ j, jsonParse resp.body = some j → j.nullish = false →
      (jsMember j "message").truthy = true →
      genericErrorMessage resp.status resp.body = jsMember j "message") ∧
    (∀ j, jsonParse resp.body = some j → j.nullish = false →
      (jsMember j "message").truthy = false → (jsMember j "id").truthy = true →
      genericErrorMessage resp.status resp.body = jsMember j "id") ∧
    (∀ j, jsonParse resp.body = some j → j.nullish = false →
      (jsMember j "message").truthy = false → (jsMember j "id").truthy = false →
      genericErrorMessage resp.status resp.body =
        .str ("API error: " ++ toString resp.status)) := by
  refine ⟨?_, rfl, rfl, ?_, ?_, ?_, ?_, ?_⟩
  · unfold classifyResponse
    rw [if_neg h429, if_neg hauth, if_pos (by rw [hnotok]; decide)]
  · intro hp
    simp [genericErrorMessage, hp]
  · intro j hp hn
    simp only [genericErrorMessage]
    rw [hp]
    simp [hn]
  · intro j hp hn hm
    simp only [genericErrorMessage]
    rw [hp]
    simp [hn, jsOr, hm]
  · intro j hp hn hm hid
    simp only [genericErrorMessage]
    rw [hp]
    simp [hn, jsOr, hm, hid]
  · intro j hp hn hm hid
    simp only [genericErrorMessage]
    rw [hp]
    simp [hn, jsOr, hm, hid]

/-- Claim C8 witness: HTTP 500 with body `{"message":"internal error"}`
classifies as a `Generic` error whose message is `internal error`
(the spec's end-to-end scenario D). -/
theorem generic_error_classification_witness :
    classifyResponse ⟨500, none, none,
      "\x7b\"message\":\"internal error\"\x7d"⟩ =
      .err (DigitalOceanApiError (.str "internal error") 500) ∧
    (DigitalOceanApiError (.str "internal error") 500).kind = .generic := by
  have h := generic_error_classification
    ⟨500, none, none, "\x7b\"message\":\"internal error\"\x7d"⟩
    (by decide) (by decide) (by decide)
  have hmsg : genericErrorMessage 500 "\x7b\"message\":\"internal error\"\x7d" =
      .str "internal error" := rfl
  refine ⟨?_, rfl⟩
  have h1 := h.1
  rw [hmsg] at h1
  exact h1

/-- Claim C8 counterexample: HTTP 500 with body
`{"message":"","id":"teapot"}` — the `message` field is present, yet the
engine's `||`-chain skips it because it is falsy and reports `teapot`
instead. -/
theorem generic_error_classification_counterexample :
    classifyResponse ⟨500, none, none,
      "\x7b\"message\":\"\",\"id\":\"teapot\"\x7d"⟩ =
      .err (DigitalOceanApiError (.str "teapot") 500) ∧
    JsValue.str "teapot" ≠ JsValue.str "" := by
  refine ⟨rfl, ?_⟩
  intro hc
  injection hc with hs
  exact absurd hs (by decide)

/-- `URLSearchParams.set` on a list whose names all differ from the new
name appends the new pair. -/
lemma urlSearchParamsSet_append {ps : List (String × String)} {k : String} (v : String)
    (h : ∀ p ∈ ps, p.1 ≠ k) : urlSearchParamsSet ps k v = ps ++ [(k, v)] := by
  induction ps with
  | nil => rfl
  | cons p rest ih =>
    have hp : p.1 ≠ k := h p (by simp)
    simp only [urlSearchParamsSet, if_neg hp]
    rw [ih (fun q hq => h q (by simp [hq]))]
    simp

/-- Folding `URLSearchParams.set` over pairs with pairwise-fresh names
just appends them all. -/
lemma foldl_set_of_nodup :
    ∀ (l : List (String × String)) (acc : List (String × String)),
      (l.map Prod.fst).Nodup → (∀ p ∈ acc, ∀ q ∈ l, p.1 ≠ q.1) →
      l.foldl (fun a p => urlSearchParamsSet a p.1 p.2) acc = acc ++ l := by
  intro l
  induction l with
  | nil => intro acc _ _; simp
  | cons q rest ih =>
    intro acc hnd hdisj
    have step : urlSearchParamsSet acc q.1 q.2 = acc ++ [q] := by
      rw [urlSearchParamsSet_append q.2 (fun p hp => hdisj p hp q (by simp))]
    have hq1 : q.1 ∉ rest.map Prod.fst := (List.nodup_cons.1 hnd).1
    rw [List.foldl_cons, step, ih (acc ++ [q]) (List.nodup_cons.1 hnd).2 ?_]
    · simp
    · intro p hp r hr
      rcases List.mem_append.1 hp with hp | hp
      · exact hdisj p hp r (by simp [hr])
      · have hpq : p = q := by simpa using hp
        rw [hpq]
        intro hcontra
        exact hq1 (hcontra ▸ List.mem_map_of_mem Prod.fst hr)

/-- Claim C5 (confirmed): for a parameter map (distinct keys, as
`Object.entries` yields), the builder drops exactly the entries whose
value is `undefined`, `null` or the empty string; it returns `""` iff
nothing survives, and otherwise `?` followed by precisely the surviving
entries in order, each as percent-encoded key `=` percent-encoded
stringified value; dropped keys never occur among the surviving ones, and
the builder is a pure function, so repeated calls agree. -/
theorem build_query_string_contract (params : List (String × JsValue))
    (hnd : (params.map Prod.fst).Nodup) :
    (buildQueryString params = "" ↔ params.filter (fun p => keepsParam p.2) = []) ∧
    (params.filter (fun p => keepsParam p.2) ≠ [] →
      buildQueryString params = "?" ++ String.intercalate "&"
        ((params.filter (fun p => keepsParam p.2)).map
          (fun p => formUrlEncode p.1 ++ "=" ++ formUrlEncode (jsToString p.2)))) ∧
    (∀ kv ∈ params, keepsParam kv.2 = false →
      kv.1 ∉ ((params.filter (fun p => keepsParam p.2)).map Prod.fst)) ∧
    buildQueryString params = buildQueryString params := by
  have hfnd : ((params.filter (fun p => keepsParam p.2)).map Prod.fst).Nodup :=
    hnd.sublist ((params.filter_sublist).map Prod.fst)
  have hfold : (params.filter (fun p => keepsParam p.2)).foldl
      (fun acc p => urlSearchParamsSet acc p.1 (jsToString p.2)) [] =
      (params.filter (fun p => keepsParam p.2)).map (fun p => (p.1, jsToString p.2)) := by
    rw [show (fun (acc : List (String × String)) (p : String × JsValue) =>
          urlSearchParamsSet acc p.1 (jsToString p.2)) =
        (fun acc p => urlSearchParamsSet acc
          ((fun q : String × JsValue => (q.1, jsToString q.2)) p).1
          ((fun q : String × JsValue => (q.1, jsToString q.2)) p).2) from rfl]
    rw [← List.foldl_map (fun q : String × JsValue => (q.1, jsToString q.2))
      (fun acc p => urlSearchParamsSet acc p.1 p.2)]
    rw [foldl_set_of_nodup _ []]
    · simp
    · rw [List.map_map]
      exact hfnd
    · intro p hp
      simp at hp
  have hexp : params.filter (fun p => keepsParam p.2) ≠ [] →
      buildQueryString params = "?" ++ String.intercalate "&"
        ((params.filter (fun p => keepsParam p.2)).map
          (fun p => formUrlEncode p.1 ++ "=" ++ formUrlEncode (jsToString p.2))) := by
    intro hne
    have hlen : ¬ ((params.filter (fun p => keepsParam p.2)).length = 0) := by
      simpa [List.length_eq_zero] using hne
    unfold buildQueryString
    rw [if_neg hlen]
    rw [hfold]
    dsimp only
    unfold urlSearchParamsToString
    rw [List.map_map]
    rfl
  refine ⟨⟨?_, ?_⟩, hexp, ?_, rfl⟩
  · intro hempty
    by_contra hne
    have := hexp hne
    rw [hempty] at this
    have hlen := congrArg String.length this
    rw [String.length_append] at hlen
    have h1 : ("" : String).length = 0 := rfl
    have h2 : ("?" : String).length = 1 := rfl
    rw [h1, h2] at hlen
    omega
  · intro hempty
    unfold buildQueryString
    rw [hempty]
    rfl
  · intro kv hkv hdrop hmem
    obtain ⟨q, hq, hq1⟩ := List.mem_map.1 hmem
    have hqp : q ∈ params := (List.mem_filter.1 hq).1
    have hqkeep : keepsParam q.2 = true := by
      simpa using (List.mem_filter.1 hq).2
    have : q = kv := List.inj_on_of_nodup_map hnd hqp hkv hq1
    rw [this] at hqkeep
    rw [hdrop] at hqkeep
    exact Bool.noConfusion hqkeep

/-- Claim C5 witness: on a concrete map with one kept number, one empty
string, one null and another kept number, the serializer keeps exactly
the two surviving keys, in order, with stringified encoded values. -/
theorem build_query_string_contract_witness :
    ((([("per_page", JsValue.num (some 20)), ("name", JsValue.str ""),
        ("tag", JsValue.null), ("page", JsValue.num (some 2))] :
        List (String × JsValue)).map Prod.fst).Nodup) ∧
    buildQueryString
      [("per_page", JsValue.num (some 20)), ("name", JsValue.str ""),
       ("tag", JsValue.null), ("page", JsValue.num (some 2))] =
      "?per_page=20&page=2" := by
  refine ⟨by decide, ?_⟩
  have h := build_query_string_contract
    [("per_page", JsValue.num (some 20)), ("name", JsValue.str ""),
     ("tag", JsValue.null), ("page", JsValue.num (some 2))] (by decide)
  have hf : ([("per_page", JsValue.num (some 20)), ("name", JsValue.str ""),
      ("tag", JsValue.null), ("page", JsValue.num (some 2))] :
      List (String × JsValue)).filter (fun p => keepsParam p.2) =
      [("per_page", JsValue.num (some 20)), ("page", JsValue.num (some 2))] := rfl
  rw [h.2.1 (by rw [hf]; exact List.cons_ne_nil _ _)]
  rfl

/-- Joining a line onto a non-empty remainder inserts one newline. -/
lemma joinLines_cons (a : String) (l : List String) (h : l ≠ []) :
    joinLines (a :: l) = a ++ "\n" ++ joinLines l := by
  cases l with
  | nil => exact absurd rfl h
  | cons b t => rfl

/-- A join of a non-trivial line list starts with its first line. -/
lemma joinLines_head (a : String) (l : List String) (h : l ≠ []) :
    ∃ rest, joinLines (a :: l) = a ++ "\n" ++ rest :=
  ⟨joinLines l, joinLines_cons a l h⟩

/-- A join ending in a given last line has that line as a suffix. -/
lemma joinLines_append_singleton (l : List String) (x : String) :
    ∃ pre, joinLines (l ++ [x]) = pre ++ x := by
  induction l with
  | nil => exact ⟨"", by simp [joinLines]⟩
  | cons a l ih =>
    obtain ⟨pre, hp⟩ := ih
    cases l with
    | nil => exact ⟨a ++ "\n", rfl⟩
    | cons b t =>
      refine ⟨a ++ "\n" ++ pre, ?_⟩
      rw [List.cons_append, joinLines_cons a ((b :: t) ++ [x]) (by simp), hp]
      simp [String.append_assoc]

/-- A substring of the first `n` characters has at most `n` characters. -/
lemma jsSubstring0_length_le (s : String) (n : Nat) :
    (jsSubstring0 s n).length ≤ n := by
  have h : (jsSubstring0 s n).length = (s.toList.take n).length := rfl
  rw [h, List.length_take]
  omega

/-- Claim C9 (confirmed): in markdown mode, a non-empty item list under an
unrecognized resource tag renders the generic table: its columns are the
first at most six keys of the first item, and every cell is `-` for a
null/undefined value, the literal `[object]` for a nested object or
array, and otherwise the stringified value truncated to at most 50
characters. -/
theorem generic_table_shape (data : JsValue) (tag : String) (xs : List JsValue)
    (htag : tag ∉ (["droplets", "volumes", "firewalls", "load_balancers", "vpcs",
      "kubernetes_clusters", "databases", "apps"] : List String))
    (hitems : jsMember data "items" = .arr xs) (hne : xs ≠ []) :
    (∃ pre, formatPaginatedAsMarkdown data tag = pre ++ formatGenericTable xs) ∧
    (∀ first rest, xs = first :: rest →
      formatGenericTable xs = joinLines (
        ("| " ++ String.intercalate " | " ((jsObjectKeys first).take 6) ++ " |") ::
        ("|" ++ String.intercalate "|" (((jsObjectKeys first).take 6).map (fun _ => "---")) ++ "|") ::
        xs.map (fun item => "| " ++ String.intercalate " | "
          (((jsObjectKeys first).take 6).map (fun k => genericCell (jsMember item k))) ++ " |")) ∧
      ((jsObjectKeys first).take 6).length ≤ 6) ∧
    (∀ v : JsValue, v.nullish = true → genericCell v = "-") ∧
    (∀ fields : List (String × JsValue), genericCell (.obj fields) = "[object]") ∧
    (∀ elems : List JsValue, genericCell (.arr elems) = "[object]") ∧
    (∀ v : JsValue, v.nullish = false → (∀ l, v ≠ .obj l) → (∀ l, v ≠ .arr l) →
      genericCell v = jsSubstring0 (jsToString v) 50 ∧ (genericCell v).length ≤ 50) := by
  simp only [List.mem_cons, List.not_mem_nil, or_false, not_or] at htag
  obtain ⟨h1, h2, h3, h4, h5, h6, h7, h8⟩ := htag
  refine ⟨?_, ?_, ?_, ?_, ?_, ?_⟩
  · unfold formatPaginatedAsMarkdown
    rw [hitems]
    dsimp only
    rw [if_neg (by simpa [List.length_eq_zero] using hne)]
    rw [if_neg h1, if_neg h2, if_neg h3, if_neg h4, if_neg h5, if_neg h6, if_neg h7, if_neg h8]
    exact joinLines_append_singleton _ _
  · intro first rest hxs
    subst hxs
    exact ⟨rfl, by rw [List.length_take]; omega⟩
  · intro v hv
    cases v <;> simp [JsValue.nullish] at hv ⊢ <;> rfl
  · intro fields
    rfl
  · intro elems
    rfl
  · intro v hv hobj harr
    cases v with
    | null => simp [JsValue.nullish] at hv
    | undefined => simp [JsValue.nullish] at hv
    | bool b => exact ⟨rfl, jsSubstring0_length_le _ _⟩
    | num n => exact ⟨rfl, jsSubstring0_length_le _ _⟩
    | str s => exact ⟨rfl, jsSubstring0_length_le _ _⟩
    | arr l => exact absurd rfl (harr l)
    | obj l => exact absurd rfl (hobj l)

/-- The paginated-response guard holds for an object exactly when its
`items` member is an array. -/
lemma isPaginatedResponse_obj (fs : List (String × JsValue)) :
    isPaginatedResponse (.obj fs) = true ↔
      ∃ xs : List JsValue, jsMember (.obj fs) "items" = .arr xs := by
  simp only [isPaginatedResponse, jsMember]
  cases hfind : fs.find? (fun p => p.1 = "items") with
  | none => simp
  | some p =>
    cases p with
    | mk k v => cases v <;> simp

/-- Markdown pagination output always opens with the capitalized tag
heading. -/
lemma formatPaginatedAsMarkdown_heading (data : JsValue) (tag : String) :
    ∃ rest, formatPaginatedAsMarkdown data tag = "## " ++ capitalize tag ++ "\n" ++ rest := by
  unfold formatPaginatedAsMarkdown
  dsimp only
  split
  · exact joinLines_head _ _ (List.cons_ne_nil _ _)
  · exact joinLines_head _ _ (List.cons_ne_nil _ _)

/-- Claim C10 (confirmed): in markdown mode, every non-null object value
whose `items` field holds an array is rendered with the paginated layout
(tag heading; no-items notice when the array is empty) regardless of its
other fields; an object without such a field takes the single-object
rendering, a bare array the generic table, and any other value is
stringified. -/
theorem markdown_items_dispatch (data : JsValue) (tag : String) :
    (∀ fs (xs : List JsValue), data = .obj fs → jsMember data "items" = .arr xs →
      formatAsMarkdown data tag = formatPaginatedAsMarkdown data tag ∧
      (∃ rest, formatAsMarkdown data tag = "## " ++ capitalize tag ++ "\n" ++ rest) ∧
      (xs = [] → ∃ pre, formatAsMarkdown data tag = pre ++ "_No items found._")) ∧
    (∀ fs, data = .obj fs → (∀ xs : List JsValue, jsMember data "items" ≠ .arr xs) →
      formatAsMarkdown data tag = formatObjectAsMarkdown fs tag) ∧
    (∀ xs : List JsValue, data = .arr xs →
      formatAsMarkdown data tag = formatGenericTable xs) ∧
    ((data.nullish = true ∨ (∃ b, data = .bool b) ∨ (∃ n, data = .num n) ∨
      (∃ s, data = .str s)) → formatAsMarkdown data tag = jsToString data) := by
  refine ⟨?_, ?_, ?_, ?_⟩
  · intro fs xs hdata hitm
    subst hdata
    have hpag : isPaginatedResponse (.obj fs) = true :=
      (isPaginatedResponse_obj fs).2 ⟨xs, hitm⟩
    have hfmt : formatAsMarkdown (.obj fs) tag = formatPaginatedAsMarkdown (.obj fs) tag := by
      simp only [formatAsMarkdown]
      rw [if_pos hpag]
    refine ⟨hfmt, ?_, ?_⟩
    · rw [hfmt]
      exact formatPaginatedAsMarkdown_heading _ _
    · intro hempty
      rw [hfmt]
      unfold formatPaginatedAsMarkdown
      rw [hitm]
      dsimp only
      rw [if_pos (by rw [hempty]; rfl)]
      exact joinLines_append_singleton _ _
  · intro fs hdata hnot
    subst hdata
    have hpag : isPaginatedResponse (.obj fs) = false := by
      cases h : isPaginatedResponse (.obj fs) with
      | false => rfl
      | true =>
        obtain ⟨xs, hx⟩ := (isPaginatedResponse_obj fs).1 h
        exact absurd hx (hnot xs)
    simp only [formatAsMarkdown]
    rw [if_neg (by rw [hpag]; exact Bool.false_ne_true)]
  · intro xs hdata
    subst hdata
    rfl
  · rintro (hn | ⟨b, rfl⟩ | ⟨n, rfl⟩ | ⟨s, rfl⟩)
    · cases data with
      | null => rfl
      | undefined => rfl
      | bool b => simp [JsValue.nullish] at hn
      | num n => simp [JsValue.nullish] at hn
      | str s => simp [JsValue.nullish] at hn
      | arr l => simp [JsValue.nullish] at hn
      | obj l => simp [JsValue.nullish] at hn
    · rfl
    · rfl
    · rfl

/-- Claim C9 witness: a one-droplet item list under the unrecognized tag
`weird_things` renders its generic table as the suffix of the paginated
markdown output. -/
theorem generic_table_shape_witness :
    ∃ pre, formatPaginatedAsMarkdown
      (.obj [("items", .arr [.obj [("id", .num (some 1))]]), ("count", .num (some 1))])
      "weird_things" = pre ++ formatGenericTable [.obj [("id", .num (some 1))]] :=
  (generic_table_shape
    (.obj [("items", .arr [.obj [("id", .num (some 1))]]), ("count", .num (some 1))])
    "weird_things" [.obj [("id", .num (some 1))]]
    (by decide) rfl (List.cons_ne_nil _ _)).1

/-- Claim C10 witness: an object carrying only an empty `items` array —
no `count`, no `hasMore` — still takes the paginated layout and shows the
no-items notice. -/
theorem markdown_items_dispatch_witness :
    formatAsMarkdown (.obj [("items", .arr [])]) "droplets" =
      formatPaginatedAsMarkdown (.obj [("items", .arr [])]) "droplets" ∧
    ∃ pre, formatAsMarkdown (.obj [("items", .arr [])]) "droplets" =
      pre ++ "_No items found._" := by
  have h := (markdown_items_dispatch (.obj [("items", .arr [])]) "droplets").1
    [("items", .arr [])] [] rfl rfl
  exact ⟨h.1, h.2.2 rfl⟩
